import Mathlib

/-!
# kratosv2httpresolver: discovery-backed HTTP resolver and client

A shallow embedding of `builder.go` and `client.go`.

* A Go `string` is a sequence of bytes; it is represented by `Str = List Char`, one list
  element per byte, so `len`, indexing and slicing are the list operations.
* A Go run-time panic (index or slice out of range, nil dereference) is the `panic`
  constructor of `Outcome`.
* Functions of other packages (`net/url.Parse`, `math/rand.Intn`, `net/http.NewRequest`,
  the codec registry of `kratos/encoding`, the registry behind `registry.Discovery`) are
  arguments of the definitions that call them.
-/

namespace Kratosv2httpresolver

/-- A Go string: its bytes in order. -/
abbrev Str := List Char

/-- What a Go call does: it returns a value, or the goroutine panics. -/
inductive Outcome (α : Type) where
  | ret (a : α)
  | panic (msg : Str)
  deriving DecidableEq, Repr

/-! ## client.go: `contentSubtype` -/

/-- The constant `baseContentType` of client.go. -/
def baseContentType : Str := "application".toList

/-- Go `strings.HasPrefix(s, p)`. -/
def stringsHasPrefixOf (s p : Str) : Bool := p.isPrefixOf s

/-- Go `strings.Index(s, sep)` for a separator of one byte: the index of the first
occurrence of `c` in `s`, or `-1`. -/
def stringsIndex (s : Str) (c : Char) : Int :=
  match s with
  | [] => -1
  | x :: xs => if x = c then 0 else
      (if stringsIndex xs c = -1 then -1 else stringsIndex xs c + 1)

/-- Go slice expression `s[lo:hi]` with `lo` a constant and `hi` an `int` variable: panics
unless `0 ≤ lo ≤ hi ≤ len(s)`. -/
def sliceLoHi (s : Str) (lo : Nat) (hi : Int) : Outcome Str :=
  if 0 ≤ hi ∧ (lo : Int) ≤ hi ∧ hi ≤ (s.length : Int) then
    .ret ((s.take hi.toNat).drop lo)
  else .panic "slice bounds out of range".toList

/-- Go slice expression `s[lo:]`: panics unless `lo ≤ len(s)`. -/
def sliceLo (s : Str) (lo : Nat) : Outcome Str :=
  if lo ≤ s.length then .ret (s.drop lo) else .panic "slice bounds out of range".toList

/-- `contentSubtype` of client.go. -/
def contentSubtype (contentType : Str) : Outcome Str :=
  if contentType = baseContentType then .ret []
  else if !(stringsHasPrefixOf contentType baseContentType) then .ret []
  else
    match contentType.get? baseContentType.length with
    | none => .panic "index out of range".toList
    | some c =>
      if c = '/' ∨ c = ';' then
        let i := stringsIndex contentType ';'
        if i ≠ -1 then sliceLoHi contentType (baseContentType.length + 1) i
        else sliceLo contentType (baseContentType.length + 1)
      else .ret []

/-! ## Types of the packages the code is written against -/

/-- The two fields of a parsed `*url.URL` that `parseEndpoint` reads. -/
structure URL where
  Scheme : Str
  Host : Str
  deriving DecidableEq, Repr

/-- Kratos `registry.ServiceInstance`, behind a pointer that is not nil. A Go
`map[string]string` is given by its entries. -/
structure ServiceInstance where
  ID : Str
  Name : Str
  Version : Str
  Metadata : List (Str × Str)
  Endpoints : List Str
  deriving DecidableEq, Repr

/-- The fields of grpc `resolver.Address` that `updateStates` sets; `Attributes` is given
by the key/value entries of the `*attributes.Attributes`. -/
structure Address where
  Addr : Str
  ServerName : Str
  Attributes : List (Str × Str)
  deriving DecidableEq, Repr

/-- Grpc `resolver.State`: the field `Addresses`, the only one this package uses. -/
structure State where
  Addresses : List Address
  deriving DecidableEq, Repr

/-- Kratos `registry.Watcher`: what the one call of `Next()` made by the watch goroutine
returns, the Go pair `(ins, err)` with `err = none` for a nil error. -/
structure Watcher where
  Next : List ServiceInstance × Option Str

/-- Kratos `registry.Discovery`: what `GetService` and `Watch` return for a service name,
the error message when the returned error is not nil. -/
structure Discovery where
  GetService : Str → Except Str (List ServiceInstance)
  Watch : Str → Except Str Watcher

/-! ## builder.go -/

/-- The struct `builder` of builder.go; the logger, which only prints, is left out. -/
structure builder where
  discoverer : Discovery
  state : State
  target : Str

/-- `NewBuilder` of builder.go, without options. -/
def NewBuilder (d : Discovery) (target : Str) : builder :=
  { target := target, discoverer := d, state := ⟨[]⟩ }

/-- `parseEndpoint` of builder.go; `parse` is `net/url.Parse`. The result is the Go pair
`(string, error)`: `.error err` for `("", err)` and `.ok host` for `(host, nil)`. -/
def parseEndpoint (parse : Str → Except Str URL) : List Str → Except Str Str
  | [] => .ok []
  | e :: endpoints =>
    match parse e with
    | .error err => .error err
    | .ok u => if u.Scheme = "http".toList then .ok u.Host else parseEndpoint parse endpoints

/-- Grpc `attributes.New(kvs...)`: the entries `kvs[2i] ↦ kvs[2i+1]`. -/
def attributesNew : List Str → List (Str × Str)
  | k :: v :: kvs => (k, v) :: attributesNew kvs
  | _ => []

/-- `parseAttributes` of builder.go. -/
def parseAttributes (md : List (Str × Str)) : List (Str × Str) :=
  attributesNew (md.foldl (fun pairs kv => pairs ++ [kv.1, kv.2]) [])

/-- `updateStates` of builder.go: the loop appends to `addrs`, then the state is assigned. -/
def builder.updateStates (parse : Str → Except Str URL) (b : builder)
    (ins : List ServiceInstance) : builder :=
  let addrs := ins.foldl (fun (addrs : List Address) i =>
    match parseEndpoint parse i.Endpoints with
    | .error _ => addrs
    | .ok endpoint =>
      if endpoint = [] then addrs
      else addrs ++ [{ ServerName := i.Name, Attributes := parseAttributes i.Metadata,
                       Addr := endpoint }]) []
  { b with state := { Addresses := addrs } }

/-- `GetState` of builder.go. -/
def builder.GetState (b : builder) : State := b.state

/-- What `Build` leaves behind: the receiver after the call, the returned error, and the
watcher on which the goroutine was started (when it was). -/
structure BuildResult where
  b : builder
  err : Option Str
  watching : Option Watcher

/-- `Build` of builder.go, up to the `go` statement. -/
def builder.Build (parse : Str → Except Str URL) (b : builder) : BuildResult :=
  match b.discoverer.GetService b.target with
  | .error e =>
    { b := b,
      err := some ("discoverer.GetService ".toList ++ b.target ++ " err: ".toList ++ e),
      watching := none }
  | .ok i =>
    let b1 := b.updateStates parse i
    match b1.discoverer.Watch b1.target with
    | .error err => { b := b1, err := some err, watching := none }
    | .ok w => { b := b1, err := none, watching := some w }

/-- The body of the goroutine that `Build` starts: one call of `w.Next()`. -/
def builder.watchGoroutine (parse : Str → Except Str URL) (b : builder) (w : Watcher) :
    builder :=
  match w.Next with
  | (ins, err) => if err ≠ none then b.updateStates parse ins else b

/-! ## client.go -/

/-- The parts of an `*http.Response` that `Do` reads: the status code, the value of the
Content-Type header, and what `ioutil.ReadAll(res.Body)` returns. -/
structure Response where
  StatusCode : Int
  ContentType : Str
  Body : Except Str Str

/-- The struct `Client` of client.go: `hc` is what `c.hc.Do(req)` returns, `resolvers` the
map from service name to resolver. -/
structure Client (Req : Type) where
  hc : Req → Except Str Response
  resolvers : Str → Option builder

/-- `AddDiscovery` of client.go: the client afterwards and the returned error. -/
def Client.AddDiscovery {Req : Type} (parse : Str → Except Str URL) (c : Client Req)
    (d : Discovery) (target : Str) : Client Req × Option Str :=
  let b := NewBuilder d target
  let r := b.Build parse
  match r.err with
  | some e => (c, some e)
  | none => ({ c with resolvers := fun k => if k = target then some r.b else c.resolvers k },
             none)

/-- `getAddr` of client.go; `intn n` is the value `rand.Intn(n)` returns. -/
def Client.getAddr {Req : Type} (c : Client Req) (intn : Nat → Nat) (target : Str) :
    Outcome (Option Address × Bool) :=
  match c.resolvers target with
  | none => .ret (none, false)
  | some r =>
    let state := r.GetState
    if state.Addresses.length = 0 then .ret (none, false)
    else
      match state.Addresses.get? (intn state.Addresses.length) with
      | none => .panic "index out of range".toList
      | some addr => .ret (some addr, true)

/-- `NewRequest` of client.go; `httpNewRequest` is `net/http.NewRequest`. -/
def Client.NewRequest {Req Body : Type} (c : Client Req) (intn : Nat → Nat)
    (httpNewRequest : Str → Str → Body → Except Str Req)
    (method target path : Str) (body : Body) : Outcome (Except Str Req) :=
  match c.getAddr intn target with
  | .panic m => .panic m
  | .ret (some addr, true) =>
    .ret (httpNewRequest method ("http://".toList ++ addr.Addr ++ path) body)
  | .ret _ => .ret (.error ("getResolver ".toList ++ target ++ " notfound".toList))

/-- Kratos `encoding.Codec`: `Unmarshal data v` gives the value behind `v` afterwards and
the returned error. -/
structure Codec (Val : Type) where
  Unmarshal : Str → Val → Val × Option Str

/-- `decodeResponse` of client.go; `getCodec` is `encoding.GetCodec`. The result is the
target afterwards and the returned error. -/
def decodeResponse {Val : Type} (getCodec : Str → Option (Codec Val)) (res : Response)
    (target : Val) : Outcome (Val × Option Str) :=
  match contentSubtype res.ContentType with
  | .panic m => .panic m
  | .ret subtype =>
    let codec := match getCodec subtype with
      | some cd => some cd
      | none => getCodec "json".toList
    match res.Body with
    | .error err => .ret (target, some err)
    | .ok data =>
      match codec with
      | none => .panic "nil pointer dereference".toList
      | some cd => .ret (cd.Unmarshal data target)

/-- A Go `error` returned by `Do`: an ordinary error, or the decoded `*errors.Error`. -/
inductive DoError (Val : Type) where
  | plain (msg : Str)
  | structured (se : Val)
  deriving DecidableEq, Repr

/-- `Do` of client.go; `se0` is `&errors.Error{Code: 2}`. The result is the caller's
target afterwards and the returned error. -/
def Client.Do {Req Val : Type} (c : Client Req) (getCodec : Str → Option (Codec Val))
    (se0 : Val) (req : Req) (target : Val) : Outcome (Val × Option (DoError Val)) :=
  match c.hc req with
  | .error err => .ret (target, some (.plain err))
  | .ok res =>
    if res.StatusCode < 200 ∨ res.StatusCode > 299 then
      match decodeResponse getCodec res se0 with
      | .panic m => .panic m
      | .ret (_, some err) => .ret (target, some (.plain err))
      | .ret (se, none) => .ret (target, some (.structured se))
    else
      match decodeResponse getCodec res target with
      | .panic m => .panic m
      | .ret (t, err) => .ret (t, err.map .plain)

/-! ## A model of `net/url.Parse`

`parseEndpoint` calls Go's `url.Parse` and reads `Scheme` and `Host`. The general theorems
below hold for every parse function. For concrete endpoints the following model is used. It
follows `url.Parse` step by step for URLs that contain none of `%`, `@`, `[`, where the
steps left out (percent-decoding of host, path and fragment, the checks of userinfo and
of IP literals) have nothing to reject; a URL with one of these bytes is outside the
model and is reported as an error. -/

/-- `stringContainsCTLByte` of net/url. -/
def stringContainsCTLByte (s : Str) : Bool :=
  s.any (fun c => c.toNat < 0x20 || c.toNat == 0x7f)

/-- The loop of `getScheme` of net/url, with the bytes already read in `scheme`. -/
def getSchemeLoop (rawURL : Str) : Str → Str → Except Str (Str × Str)
  | _, [] => .ok ([], rawURL)
  | scheme, c :: cs =>
    if c.isAlpha then getSchemeLoop rawURL (scheme ++ [c]) cs
    else if c.isDigit || c == '+' || c == '-' || c == '.' then
      (if scheme = [] then .ok ([], rawURL) else getSchemeLoop rawURL (scheme ++ [c]) cs)
    else if c == ':' then
      (if scheme = [] then .error "missing protocol scheme".toList else .ok (scheme, cs))
    else .ok ([], rawURL)

/-- `getScheme` of net/url: `(scheme, rest)`. -/
def getScheme (rawURL : Str) : Except Str (Str × Str) := getSchemeLoop rawURL [] rawURL

/-- The bytes below 0x80 that net/url accepts unescaped in a host. -/
def hostByteOK (c : Char) : Bool :=
  c.toNat ≥ 0x80 || c.isAlphanum || "!$&'()*+,;=:[]<>\"-_.~".toList.contains c

/-- `parseHost` of net/url for a host that is no IP literal: the optional port after the
last colon is made of digits, and every byte may stand in a host. -/
def parseHost (host : Str) : Except Str Str :=
  if host.contains ':' && !(host.reverse.takeWhile (· ≠ ':')).all Char.isDigit then
    .error "invalid port after host".toList
  else if !host.all hostByteOK then .error "invalid character in host name".toList
  else .ok host

/-- The model of `url.Parse`, for `Scheme` and `Host`. -/
def urlParse (rawURL : Str) : Except Str URL :=
  if rawURL.contains '%' || rawURL.contains '@' || rawURL.contains '[' then
    .error "outside the model".toList
  else
    let u := rawURL.takeWhile (· ≠ '#')
    if stringContainsCTLByte u then .error "invalid control character in URL".toList
    else if u = "*".toList then .ok { Scheme := [], Host := [] }
    else
      match getScheme u with
      | .error err => .error err
      | .ok (scheme0, rest0) =>
        let scheme := scheme0.map Char.toLower
        let rest := rest0.takeWhile (· ≠ '?')
        if !("/".toList.isPrefixOf rest) && scheme ≠ [] then .ok { Scheme := scheme, Host := [] }
        else if !("/".toList.isPrefixOf rest) && (rest.takeWhile (· ≠ '/')).contains ':' then
          .error "first path segment in URL cannot contain colon".toList
        else if (scheme ≠ [] || !("///".toList.isPrefixOf rest)) && "//".toList.isPrefixOf rest then
          match parseHost ((rest.drop 2).takeWhile (· ≠ '/')) with
          | .error err => .error err
          | .ok host => .ok { Scheme := scheme, Host := host }
        else .ok { Scheme := scheme, Host := [] }

/-! ## The address computation in the words of the specification -/

/-- The instance has at least one endpoint whose scheme is http. -/
def hasHttpEndpoint (parse : Str → Except Str URL) (i : ServiceInstance) : Bool :=
  i.Endpoints.any (fun e =>
    match parse e with
    | .ok u => u.Scheme == "http".toList
    | .error _ => false)

/-- The first endpoint, in list order, whose scheme is http. -/
def firstHttpEndpoint (parse : Str → Except Str URL) (endpoints : List Str) : Option URL :=
  (endpoints.filterMap (fun e =>
    match parse e with
    | .ok u => if u.Scheme = "http".toList then some u else none
    | .error _ => none)).head?

/-- The Address Set as the specification words it: the instances in input order, one
Address (host:port of its first http endpoint, the instance name, its metadata as
attributes) for each instance that has an http endpoint. -/
def specAddresses (parse : Str → Except Str URL) (ins : List ServiceInstance) :
    List Address :=
  ins.filterMap (fun i =>
    (firstHttpEndpoint parse i.Endpoints).map (fun u =>
      { ServerName := i.Name, Attributes := parseAttributes i.Metadata, Addr := u.Host }))

/-! ## The address computation as a search

These definitions describe what `parseEndpoint` and `updateStates` compute without the
loops; `updateStates_addresses` below proves that the code computes them. -/

/-- The in-order scan of an endpoint list stops at this endpoint: it does not parse, or
its scheme is http. -/
def scanStops (parse : Str → Except Str URL) (e : Str) : Bool :=
  match parse e with
  | .error _ => true
  | .ok u => u.Scheme == "http".toList

/-- The endpoint an instance resolves to: the first endpoint at which the scan stops,
when that endpoint parses (its scheme is then http) and its host is not empty. -/
def resolvedEndpoint (parse : Str → Except Str URL) (endpoints : List Str) : Option URL :=
  match endpoints.find? (scanStops parse) with
  | none => none
  | some e =>
    match parse e with
    | .error _ => none
    | .ok u => if u.Host = [] then none else some u

/-- The Address Set in terms of `resolvedEndpoint`: the instances in input order, one
Address for each instance that resolves to an endpoint. -/
def resolvedAddresses (parse : Str → Except Str URL) (ins : List ServiceInstance) :
    List Address :=
  ins.filterMap (fun i =>
    (resolvedEndpoint parse i.Endpoints).map (fun u =>
      { ServerName := i.Name, Attributes := parseAttributes i.Metadata, Addr := u.Host }))

/-! ## Concrete registries, instances and clients -/

/-- A registry whose calls fail. -/
def noDiscovery : Discovery :=
  { GetService := fun _ => .error "unavailable".toList,
    Watch := fun _ => .error "unavailable".toList }

/-- An instance named "svc" with the given endpoints and metadata. -/
def svcInstance (endpoints : List Str) (metadata : List (Str × Str)) : ServiceInstance :=
  { ID := "1".toList, Name := "svc".toList, Version := [], Metadata := metadata,
    Endpoints := endpoints }

/-- A resolver for "svc" holding the given Address Set. -/
def svcBuilder (addrs : List Address) : builder :=
  { discoverer := noDiscovery, state := { Addresses := addrs }, target := "svc".toList }

/-- An instance whose only endpoint has scheme http and no host. -/
def hostlessInstance : ServiceInstance := svcInstance ["http://".toList] []

/-- An instance with a malformed endpoint in front of an http endpoint. -/
def malformedFirstInstance : ServiceInstance :=
  svcInstance ["://bad".toList, "http://10.0.0.1:8080".toList] []

/-- An instance whose only endpoint is a grpc endpoint. -/
def grpcOnlyInstance : ServiceInstance := svcInstance ["grpc://x:1".toList] []

/-- The instance of the round-trip scenario: one http endpoint and the metadata zone=a. -/
def zoneInstance : ServiceInstance :=
  svcInstance ["http://10.0.0.1:8080".toList] [("zone".toList, "a".toList)]

/-- The Address that `zoneInstance` resolves to. -/
def zoneAddress : Address :=
  { Addr := "10.0.0.1:8080".toList, ServerName := "svc".toList,
    Attributes := [("zone".toList, "a".toList)] }

/-- An instance that moved to another host. -/
def movedInstance : ServiceInstance := svcInstance ["http://10.0.0.2:8080".toList] []

/-- The Address that `movedInstance` resolves to. -/
def movedAddress : Address :=
  { Addr := "10.0.0.2:8080".toList, ServerName := "svc".toList, Attributes := [] }

/-- A registry that reports `zoneInstance` and whose watch then reports `movedInstance`. -/
def zoneDiscovery : Discovery :=
  { GetService := fun _ => .ok [zoneInstance],
    Watch := fun _ => .ok { Next := ([movedInstance], none) } }

/-- A registry that reports `zoneInstance` but cannot open a watch. -/
def unwatchableDiscovery : Discovery :=
  { GetService := fun _ => .ok [zoneInstance],
    Watch := fun _ => .error "watch refused".toList }

/-- A stand-in for `http.NewRequest` that keeps the method and the URL string. -/
def recordRequest (method url : Str) (_ : Unit) : Except Str (Str × Str) := .ok (method, url)

/-- A client without resolvers; its transport answers every request with `res`. -/
def emptyClient (res : Except Str Response) : Client (Str × Str) :=
  { hc := fun _ => res, resolvers := fun _ => none }

/-- A client with one resolver, for "svc", that holds the given Address Set. -/
def svcClient (addrs : List Address) : Client (Str × Str) :=
  { hc := fun _ => .error "no transport".toList,
    resolvers := fun k => if k = "svc".toList then some (svcBuilder addrs) else none }

/-- A codec that stores the body in the target. -/
def storeCodec : Codec Str := { Unmarshal := fun data _ => (data, none) }

/-- A codec registry that knows "json" only. -/
def jsonOnly (subtype : Str) : Option (Codec Str) :=
  if subtype = "json".toList then some storeCodec else none

/-- A response with status 500 whose Content-Type is "application" followed by a
parameter. -/
def paramOnlyResponse : Response :=
  { StatusCode := 500, ContentType := "application;charset=utf-8".toList,
    Body := .ok "oops".toList }

/-! ## Facts about the string helpers -/

theorem stringsIndex_of_not_mem (c : Char) (s : Str) (h : c ∉ s) : stringsIndex s c = -1 := by
  induction s with
  | nil => rfl
  | cons x xs ih =>
    have hx : x ≠ c := fun e => h (by simp [e])
    have hxs : c ∉ xs := fun m => h (List.mem_cons_of_mem _ m)
    simp [stringsIndex, hx, ih hxs]

theorem stringsIndex_append_cons (c : Char) (l r : Str) (h : c ∉ l) :
    stringsIndex (l ++ c :: r) c = (l.length : Int) := by
  induction l with
  | nil => simp [stringsIndex]
  | cons x xs ih =>
    have hx : x ≠ c := fun e => h (by simp [e])
    have hxs : c ∉ xs := fun m => h (List.mem_cons_of_mem _ m)
    have hne : ¬ ((xs.length : Int) = -1) := by omega
    rw [List.cons_append]
    unfold stringsIndex
    rw [if_neg hx, ih hxs, if_neg hne]
    simp

theorem applicationSlash_eq :
    "application/".toList = baseContentType ++ ['/'] := by decide

theorem baseContentType_eq :
    baseContentType = ['a', 'p', 'p', 'l', 'i', 'c', 'a', 't', 'i', 'o', 'n'] := by decide

/-- After the two early returns, `contentSubtype` looks at the byte that follows
"application". -/
theorem contentSubtype_cons (c : Char) (t : Str) :
    contentSubtype (baseContentType ++ c :: t) =
      if c = '/' ∨ c = ';' then
        (if stringsIndex (baseContentType ++ c :: t) ';' ≠ -1 then
          sliceLoHi (baseContentType ++ c :: t) 12 (stringsIndex (baseContentType ++ c :: t) ';')
        else sliceLo (baseContentType ++ c :: t) 12)
      else .ret [] := by
  have hne : baseContentType ++ c :: t ≠ baseContentType := by
    intro h
    have := congrArg List.length h
    simp at this
  have hpre : stringsHasPrefixOf (baseContentType ++ c :: t) baseContentType = true := by
    simp [stringsHasPrefixOf]
  have hget : (baseContentType ++ c :: t).get? baseContentType.length = some c := by
    simp [baseContentType_eq]
  have hlen : baseContentType.length + 1 = 12 := by decide
  unfold contentSubtype
  rw [if_neg hne, hpre, hget, hlen]
  rfl

theorem sliceLoHi_mid (pre mid post : Str) :
    sliceLoHi (pre ++ mid ++ post) pre.length ((pre ++ mid).length : Int) = .ret mid := by
  unfold sliceLoHi
  have h : (0 : Int) ≤ ((pre ++ mid).length : Int) ∧ (pre.length : Int) ≤ ((pre ++ mid).length : Int)
      ∧ ((pre ++ mid).length : Int) ≤ ((pre ++ mid ++ post).length : Int) := by
    simp only [List.length_append]
    omega
  rw [if_pos h, Int.toNat_ofNat, List.take_left' rfl, List.drop_left' rfl]

theorem contentSubtype_slash (s : Str) (hs : ';' ∉ s) :
    contentSubtype ("application/".toList ++ s) = .ret s := by
  have hidx : stringsIndex (baseContentType ++ '/' :: s) ';' = -1 := by
    apply stringsIndex_of_not_mem
    intro hm
    rcases List.mem_append.mp hm with h | h
    · revert h; decide
    · rcases List.mem_cons.mp h with h | h
      · revert h; decide
      · exact hs h
  have e : "application/".toList ++ s = baseContentType ++ '/' :: s := by
    rw [applicationSlash_eq]; simp
  rw [e, contentSubtype_cons, hidx]
  simp [sliceLo, baseContentType_eq]

theorem contentSubtype_slash_param (s p : Str) (hs : ';' ∉ s) :
    contentSubtype ("application/".toList ++ s ++ ";".toList ++ p) = .ret s := by
  have hnm : ';' ∉ "application/".toList ++ s := by
    intro hm
    rcases List.mem_append.mp hm with h | h
    · revert h; decide
    · exact hs h
  have e : "application/".toList ++ s ++ ";".toList ++ p
      = ("application/".toList ++ s) ++ ';' :: p := by
    simp [show ";".toList = [';'] from rfl]
  have hidx : stringsIndex ("application/".toList ++ s ++ ";".toList ++ p) ';'
      = (("application/".toList ++ s).length : Int) := by
    rw [e]
    exact stringsIndex_append_cons _ _ _ hnm
  have e2 : "application/".toList ++ s ++ ";".toList ++ p
      = baseContentType ++ '/' :: (s ++ ';' :: p) := by
    rw [e, applicationSlash_eq]; simp
  have hne : ¬ ((("application/".toList ++ s).length : Int) = -1) := by omega
  have h12 : (12 : Nat) = ("application/".toList).length := by decide
  rw [e2, contentSubtype_cons, ← e2, hidx, if_pos (Or.inl rfl), if_pos hne, h12]
  have e3 : "application/".toList ++ s ++ ";".toList ++ p
      = "application/".toList ++ s ++ (";".toList ++ p) := by simp
  rw [e3]
  exact sliceLoHi_mid _ _ _

theorem contentSubtype_no_base (h : Str) (hh : stringsHasPrefixOf h baseContentType = false) :
    contentSubtype h = .ret [] := by
  have hne : h ≠ baseContentType := by
    intro e
    rw [e] at hh
    revert hh
    decide
  unfold contentSubtype
  rw [if_neg hne, hh]
  rfl

/-! ## Facts about the address computation -/

/-- The scan of `parseEndpoint` is a search for the first endpoint at which it stops. -/
theorem parseEndpoint_eq_find (parse : Str → Except Str URL) (endpoints : List Str) :
    parseEndpoint parse endpoints =
      match endpoints.find? (scanStops parse) with
      | none => .ok []
      | some e =>
        match parse e with
        | .error err => .error err
        | .ok u => .ok u.Host := by
  induction endpoints with
  | nil => rfl
  | cons e es ih =>
    unfold parseEndpoint
    rw [List.find?_cons]
    cases hp : parse e with
    | error err => simp [scanStops, hp]
    | ok u =>
      by_cases hs : u.Scheme = ['h', 't', 't', 'p']
      · simp [scanStops, hp, hs]
      · have hb : (u.Scheme == ['h', 't', 't', 'p']) = false := by simpa using hs
        simp [scanStops, hp, hs, hb, ih]

/-- What one instance adds to `addrs` in the loop of `updateStates`. -/
theorem loop_step_eq (parse : Str → Except Str URL) (i : ServiceInstance)
    (addrs : List Address) :
    (match parseEndpoint parse i.Endpoints with
      | .error _ => addrs
      | .ok endpoint =>
        if endpoint = [] then addrs
        else addrs ++ [{ ServerName := i.Name, Attributes := parseAttributes i.Metadata,
                         Addr := endpoint }]) =
      addrs ++ ((resolvedEndpoint parse i.Endpoints).map (fun u =>
        ({ ServerName := i.Name, Attributes := parseAttributes i.Metadata,
           Addr := u.Host } : Address))).toList := by
  rw [parseEndpoint_eq_find]
  unfold resolvedEndpoint
  cases hf : i.Endpoints.find? (scanStops parse) with
  | none => simp
  | some e =>
    cases hp : parse e with
    | error err => simp [hp]
    | ok u =>
      by_cases hh : u.Host = []
      · simp [hp, hh]
      · simp [hp, hh]

theorem updateStates_addresses (parse : Str → Except Str URL) (b : builder)
    (ins : List ServiceInstance) :
    (b.updateStates parse ins).state.Addresses = resolvedAddresses parse ins := by
  have key : ∀ (l : List ServiceInstance) (acc : List Address),
      l.foldl (fun (addrs : List Address) i =>
        match parseEndpoint parse i.Endpoints with
        | .error _ => addrs
        | .ok endpoint =>
          if endpoint = [] then addrs
          else addrs ++ [{ ServerName := i.Name, Attributes := parseAttributes i.Metadata,
                           Addr := endpoint }]) acc
        = acc ++ resolvedAddresses parse l := by
    intro l
    induction l with
    | nil => intro acc; simp [resolvedAddresses]
    | cons i is ih =>
      intro acc
      rw [List.foldl_cons, loop_step_eq, ih]
      unfold resolvedAddresses
      rw [List.filterMap_cons]
      cases resolvedEndpoint parse i.Endpoints <;> simp
  simpa [builder.updateStates] using key ins []

/-- When an instance resolves: its endpoint list splits into endpoints that parse with a
scheme other than http, then an endpoint that parses with scheme http and a host. -/
theorem resolvedEndpoint_eq_some_iff (parse : Str → Except Str URL) (endpoints : List Str)
    (u : URL) :
    resolvedEndpoint parse endpoints = some u ↔
      ∃ pre e post, endpoints = pre ++ e :: post ∧
        (∀ x ∈ pre, ∃ v, parse x = .ok v ∧ v.Scheme ≠ "http".toList) ∧
        parse e = .ok u ∧ u.Scheme = "http".toList ∧ u.Host ≠ [] := by
  have hstop : ∀ x, scanStops parse x = false ↔ ∃ v, parse x = .ok v ∧ v.Scheme ≠ "http".toList := by
    intro x
    unfold scanStops
    cases hx : parse x with
    | error err => simp
    | ok v => simp
  constructor
  · intro h
    unfold resolvedEndpoint at h
    cases hf : endpoints.find? (scanStops parse) with
    | none => rw [hf] at h; cases h
    | some e =>
      rw [hf] at h
      obtain ⟨hpe, pre, post, hsplit, hpre⟩ := List.find?_eq_some.mp hf
      cases hp : parse e with
      | error err => simp [hp] at h
      | ok v =>
        by_cases hh : v.Host = []
        · simp [hp, hh] at h
        · simp only [hp, hh, if_false, Option.some.injEq] at h
          subst h
          refine ⟨pre, e, post, hsplit, ?_, hp, ?_, hh⟩
          · intro x hx
            exact (hstop x).mp (by simpa using hpre x hx)
          · simpa [scanStops, hp] using hpe
  · rintro ⟨pre, e, post, hsplit, hpre, hp, hs, hh⟩
    have hf : endpoints.find? (scanStops parse) = some e := by
      apply List.find?_eq_some.mpr
      refine ⟨?_, pre, post, hsplit, ?_⟩
      · simp [scanStops, hp, hs]
      · intro x hx
        simpa using (hstop x).mpr (hpre x hx)
    unfold resolvedEndpoint
    rw [hf]
    simp [hp, hh]

/-- A resolved endpoint is the first endpoint, in list order, whose scheme is http. -/
theorem resolvedEndpoint_first_http (parse : Str → Except Str URL) (endpoints : List Str)
    (u : URL) (h : resolvedEndpoint parse endpoints = some u) :
    firstHttpEndpoint parse endpoints = some u := by
  obtain ⟨pre, e, post, hsplit, hpre, hp, hs, _⟩ :=
    (resolvedEndpoint_eq_some_iff parse endpoints u).mp h
  have hnone : pre.filterMap (fun e =>
      match parse e with
      | .ok u => if u.Scheme = "http".toList then some u else none
      | .error _ => none) = [] := by
    apply List.filterMap_eq_nil_iff.mpr
    intro x hx
    obtain ⟨v, hv, hvs⟩ := hpre x hx
    simp only [hv, if_neg hvs]
  unfold firstHttpEndpoint
  rw [hsplit, List.filterMap_append, hnone, List.filterMap_cons]
  simp only [hp, if_pos hs, List.nil_append, List.head?_cons]

/-! ## The address computation of `updateStates` -/

/-- C1, as stated, fails: an instance whose only endpoint is "http://" has an endpoint of
scheme http, yet `updateStates` computes an empty Address Set for it. -/
theorem updateStates_hostless_counterexample :
    hasHttpEndpoint urlParse hostlessInstance = true ∧
    [hostlessInstance].countP (hasHttpEndpoint urlParse) = 1 ∧
    ((svcBuilder []).updateStates urlParse [hostlessInstance]).GetState.Addresses.length = 0 := by
  decide

/-- C1, amended: the Address Set computed by `updateStates` has one Address for each
instance that resolves to an endpoint (the first endpoint that fails to parse or has
scheme http does parse and has a non-empty host) and none for any other instance, so its
length is the number of instances that resolve; an instance whose only endpoint is
"grpc://x:1" contributes nothing. -/
theorem updateStates_length_eq_count (parse : Str → Except Str URL) (b : builder)
    (ins : List ServiceInstance) :
    (b.updateStates parse ins).GetState.Addresses.length =
        ins.countP (fun i => (resolvedEndpoint parse i.Endpoints).isSome) ∧
    (∀ i : ServiceInstance, (b.updateStates parse [i]).GetState.Addresses.length =
        if (resolvedEndpoint parse i.Endpoints).isSome then 1 else 0) ∧
    (b.updateStates urlParse [grpcOnlyInstance]).GetState.Addresses = [] := by
  refine ⟨?_, ?_, ?_⟩
  · show (b.updateStates parse ins).state.Addresses.length = _
    rw [updateStates_addresses]
    unfold resolvedAddresses
    rw [List.length_filterMap_eq_countP]
    congr 1
    funext i
    cases resolvedEndpoint parse i.Endpoints <;> rfl
  · intro i
    show (b.updateStates parse [i]).state.Addresses.length = _
    rw [updateStates_addresses]
    unfold resolvedAddresses
    cases h : resolvedEndpoint parse i.Endpoints <;> simp [h]
  · show (b.updateStates urlParse [grpcOnlyInstance]).state.Addresses = []
    rw [updateStates_addresses]
    decide

/-- C2, as stated, fails: the instance has the http endpoint "http://10.0.0.1:8080", so the
specification's sequence holds an Address for it, but the endpoint in front of it does not
parse and `updateStates` stores an empty Address Set. -/
theorem updateStates_malformed_counterexample :
    specAddresses urlParse [malformedFirstInstance] =
      [{ Addr := "10.0.0.1:8080".toList, ServerName := "svc".toList, Attributes := [] }] ∧
    ((svcBuilder []).updateStates urlParse [malformedFirstInstance]).GetState.Addresses = [] ∧
    ((svcBuilder []).updateStates urlParse [malformedFirstInstance]).GetState.Addresses ≠
      specAddresses urlParse [malformedFirstInstance] := by
  decide

/-- C2, amended: after `updateStates` the stored Address Set is the instances in input
order, with one Address for each instance that resolves to an endpoint: its Addr is the
host:port of that endpoint, which is the first endpoint with scheme http, is preceded only
by endpoints that parse, and has a non-empty host; its ServerName is the instance name.
The stored state does not depend on the previous state. -/
theorem updateStates_state_eq (parse : Str → Except Str URL) (b b' : builder)
    (ins : List ServiceInstance) :
    (b.updateStates parse ins).GetState.Addresses = resolvedAddresses parse ins ∧
    (b.updateStates parse ins).GetState = (b'.updateStates parse ins).GetState ∧
    (∀ (endpoints : List Str) (u : URL), resolvedEndpoint parse endpoints = some u ↔
      ∃ pre e post, endpoints = pre ++ e :: post ∧
        (∀ x ∈ pre, ∃ v, parse x = .ok v ∧ v.Scheme ≠ "http".toList) ∧
        parse e = .ok u ∧ u.Scheme = "http".toList ∧ u.Host ≠ []) ∧
    (∀ (endpoints : List Str) (u : URL), resolvedEndpoint parse endpoints = some u →
      firstHttpEndpoint parse endpoints = some u) :=
  ⟨updateStates_addresses parse b ins, rfl,
   resolvedEndpoint_eq_some_iff parse, resolvedEndpoint_first_http parse⟩

/-! ## `contentSubtype` and decoder selection -/

/-- C7: for a subtype `s` without ';' and any parameter string `p`, `contentSubtype` of
"application/" + s and of "application/" + s + ";" + p is `s`; for a header that does not
start with "application", the empty header included, it is the empty subtype. -/
theorem contentSubtype_extracts (s p h : Str) (hs : ';' ∉ s)
    (hh : stringsHasPrefixOf h baseContentType = false) :
    contentSubtype ("application/".toList ++ s) = .ret s ∧
    contentSubtype ("application/".toList ++ s ++ ";".toList ++ p) = .ret s ∧
    contentSubtype h = .ret [] ∧
    contentSubtype [] = .ret [] :=
  ⟨contentSubtype_slash s hs, contentSubtype_slash_param s p hs, contentSubtype_no_base h hh,
   contentSubtype_no_base [] (by decide)⟩

/-- C7 at "application/json", "application/json;charset=utf-8" and "text/html". -/
theorem contentSubtype_extracts_json :
    contentSubtype "application/json".toList = .ret "json".toList ∧
    contentSubtype "application/json;charset=utf-8".toList = .ret "json".toList ∧
    contentSubtype "text/html".toList = .ret [] ∧
    contentSubtype [] = .ret [] :=
  contentSubtype_extracts "json".toList "charset=utf-8".toList "text/html".toList
    (by decide) (by decide)

/-- A header that starts with "application;" makes `contentSubtype` evaluate the slice
`contentType[12:11]`. -/
theorem contentSubtype_semicolon (t : Str) :
    contentSubtype (baseContentType ++ ';' :: t) = .panic "slice bounds out of range".toList := by
  have hidx : stringsIndex (baseContentType ++ ';' :: t) ';' = (baseContentType.length : Int) :=
    stringsIndex_append_cons _ _ _ (by decide)
  have h11 : (baseContentType.length : Int) = 11 := by decide
  rw [contentSubtype_cons, hidx, h11, if_pos (Or.inr rfl), if_pos (by decide)]
  unfold sliceLoHi
  rw [if_neg (by omega)]

theorem decodeResponse_paramOnly :
    decodeResponse jsonOnly paramOnlyResponse [] = .panic "slice bounds out of range".toList := by
  unfold decodeResponse
  rw [show contentSubtype paramOnlyResponse.ContentType =
    .panic "slice bounds out of range".toList from contentSubtype_semicolon "charset=utf-8".toList]

/-- C8 at the failing input: for the Content-Type "application;charset=utf-8" (and for
every header that starts with "application;") `contentSubtype` panics with a slice bound
out of range, and `decodeResponse` panics with it before a decoder is chosen. -/
theorem contentSubtype_panics_on_semicolon :
    contentSubtype "application;charset=utf-8".toList =
      .panic "slice bounds out of range".toList ∧
    (∀ t : Str, contentSubtype (baseContentType ++ ';' :: t) =
      .panic "slice bounds out of range".toList) ∧
    decodeResponse jsonOnly paramOnlyResponse [] = .panic "slice bounds out of range".toList :=
  ⟨contentSubtype_semicolon "charset=utf-8".toList, contentSubtype_semicolon,
   decodeResponse_paramOnly⟩

/-- When `contentSubtype` returns, `decodeResponse` reads the body and unmarshals it with
the codec registered for that subtype, or with the JSON codec when there is none. -/
theorem decodeResponse_codec {Val : Type} (getCodec : Str → Option (Codec Val))
    (res : Response) (target : Val) (subtype data : Str) (json : Codec Val)
    (hsub : contentSubtype res.ContentType = .ret subtype)
    (hjson : getCodec "json".toList = some json) (hbody : res.Body = .ok data) :
    decodeResponse getCodec res target =
      .ret (((getCodec subtype).getD json).Unmarshal data target) := by
  unfold decodeResponse
  rw [hsub, hbody]
  cases hc : getCodec subtype with
  | none => simp only [hc, hjson, Option.getD_none]
  | some cd => simp only [hc, Option.getD_some]

/-! ## `Do` -/

/-- How `Do` uses the status code once the round trip has succeeded. -/
theorem Do_status_dispatch {Req Val : Type} (c : Client Req)
    (getCodec : Str → Option (Codec Val)) (se0 : Val) (req : Req) (target : Val)
    (res : Response) (hres : c.hc req = .ok res) :
    (200 ≤ res.StatusCode ∧ res.StatusCode ≤ 299 →
      c.Do getCodec se0 req target =
        match decodeResponse getCodec res target with
        | .panic m => .panic m
        | .ret (t, err) => .ret (t, err.map .plain)) ∧
    (res.StatusCode < 200 ∨ res.StatusCode > 299 →
      c.Do getCodec se0 req target =
        match decodeResponse getCodec res se0 with
        | .panic m => .panic m
        | .ret (_, some err) => .ret (target, some (.plain err))
        | .ret (se, none) => .ret (target, some (.structured se))) := by
  constructor
  · intro h
    have hn : ¬ (res.StatusCode < 200 ∨ res.StatusCode > 299) := by omega
    unfold Client.Do
    rw [hres]
    simp only [hn, if_false]
  · intro h
    unfold Client.Do
    rw [hres]
    simp only [h, if_true]

/-- C9 at the failing input: the round trip succeeds with status 500 and the Content-Type
"application;charset=utf-8"; `Do` returns no error value, it panics in `contentSubtype`. -/
theorem Do_panics_on_semicolon :
    (emptyClient (.ok paramOnlyResponse)).Do jsonOnly [] ("GET".toList, "http://x/".toList) [] =
      .panic "slice bounds out of range".toList := by
  have h := (Do_status_dispatch (emptyClient (.ok paramOnlyResponse)) jsonOnly []
    ("GET".toList, "http://x/".toList) [] paramOnlyResponse rfl).2 (Or.inr (by decide))
  rw [h, decodeResponse_paramOnly]

/-! ## `NewRequest` -/

/-- What `getAddr` returns for a name without resolver or with an empty Address Set. -/
theorem getAddr_none {Req : Type} (c : Client Req) (intn : Nat → Nat) (target : Str)
    (h : c.resolvers target = none ∨
      ∃ r, c.resolvers target = some r ∧ r.GetState.Addresses = []) :
    c.getAddr intn target = .ret (none, false) := by
  unfold Client.getAddr
  rcases h with h | ⟨r, hr, he⟩
  · rw [h]
  · rw [hr]
    simp [he]

/-- What `getAddr` returns for a resolver with a non-empty Address Set. -/
theorem getAddr_some {Req : Type} (c : Client Req) (intn : Nat → Nat) (target : Str)
    (r : builder) (a : Address) (hr : c.resolvers target = some r)
    (ha : r.GetState.Addresses.get? (intn r.GetState.Addresses.length) = some a) :
    c.getAddr intn target = .ret (some a, true) := by
  have hlen : r.GetState.Addresses.length ≠ 0 := by
    intro h0
    have hnil : r.GetState.Addresses = [] := List.length_eq_zero.mp h0
    rw [hnil] at ha
    simp at ha
  unfold Client.getAddr
  rw [hr]
  simp only [hlen, if_false, ha]

/-- C3, as stated, fails: for the name "svc", a client without resolver and a client whose
resolver holds an empty Address Set return the same error from `NewRequest`. -/
theorem NewRequest_errors_equal_counterexample :
    (emptyClient (.error [])).resolvers "svc".toList = none ∧
    ((svcClient []).resolvers "svc".toList).map (fun r => r.GetState.Addresses) = some [] ∧
    (emptyClient (.error [])).NewRequest (fun _ => 0) recordRequest
        "GET".toList "svc".toList "/x".toList () =
      (svcClient []).NewRequest (fun _ => 0) recordRequest
        "GET".toList "svc".toList "/x".toList () :=
  ⟨rfl, rfl, rfl⟩

/-- C3, amended: `NewRequest` fails in both cases, and with the same error: for a service
name with no registered Resolver, and for a registered name whose current Address Set is
empty, it returns the error "getResolver <name> notfound". -/
theorem NewRequest_notfound {Req Body : Type} (c : Client Req) (intn : Nat → Nat)
    (httpNewRequest : Str → Str → Body → Except Str Req) (method target path : Str)
    (body : Body)
    (h : c.resolvers target = none ∨
      ∃ r, c.resolvers target = some r ∧ r.GetState.Addresses = []) :
    c.NewRequest intn httpNewRequest method target path body =
      .ret (.error ("getResolver ".toList ++ target ++ " notfound".toList)) := by
  unfold Client.NewRequest
  rw [getAddr_none c intn target h]

/-- C3, amended, for the name "svc": without resolver, and with an empty Address Set. -/
theorem NewRequest_notfound_svc :
    (emptyClient (.error [])).NewRequest (fun _ => 0) recordRequest
        "GET".toList "svc".toList "/x".toList () =
      .ret (.error "getResolver svc notfound".toList) ∧
    (svcClient []).NewRequest (fun _ => 0) recordRequest
        "GET".toList "svc".toList "/x".toList () =
      .ret (.error "getResolver svc notfound".toList) :=
  ⟨NewRequest_notfound (emptyClient (.error [])) (fun _ => 0) recordRequest
      "GET".toList "svc".toList "/x".toList () (Or.inl rfl),
   NewRequest_notfound (svcClient []) (fun _ => 0) recordRequest
      "GET".toList "svc".toList "/x".toList () (Or.inr ⟨svcBuilder [], rfl, rfl⟩)⟩

/-- C4: for a registered name whose Address Set is not empty and every value `rand.Intn`
can return, the index is within bounds and `NewRequest` is `http.NewRequest` for the URL
"http://" + a.Addr + path with `a` the element of the Address Set at that index; for a set
of one Address it is that Address. -/
theorem NewRequest_url {Req Body : Type} (c : Client Req) (intn : Nat → Nat)
    (httpNewRequest : Str → Str → Body → Except Str Req) (method target path : Str)
    (body : Body) (r : builder)
    (hintn : ∀ n, 0 < n → intn n < n)
    (hr : c.resolvers target = some r) (hne : r.GetState.Addresses ≠ []) :
    (∃ a ∈ r.GetState.Addresses,
      r.GetState.Addresses.get? (intn r.GetState.Addresses.length) = some a ∧
      c.NewRequest intn httpNewRequest method target path body =
        .ret (httpNewRequest method ("http://".toList ++ a.Addr ++ path) body)) ∧
    (∀ a0, r.GetState.Addresses = [a0] →
      c.NewRequest intn httpNewRequest method target path body =
        .ret (httpNewRequest method ("http://".toList ++ a0.Addr ++ path) body)) := by
  have hpos : 0 < r.GetState.Addresses.length := List.length_pos.mpr hne
  have hlt := hintn _ hpos
  have hget : r.GetState.Addresses.get? (intn r.GetState.Addresses.length) =
      some (r.GetState.Addresses.get ⟨_, hlt⟩) := List.get?_eq_get hlt
  have hreq : c.NewRequest intn httpNewRequest method target path body =
      .ret (httpNewRequest method
        ("http://".toList ++ (r.GetState.Addresses.get ⟨_, hlt⟩).Addr ++ path) body) := by
    unfold Client.NewRequest
    rw [getAddr_some c intn target r _ hr hget]
  refine ⟨⟨_, List.get_mem _ _ _, hget, hreq⟩, ?_⟩
  intro a0 h0
  have hmem : r.GetState.Addresses.get ⟨_, hlt⟩ ∈ r.GetState.Addresses := List.get_mem _ _ _
  have heq : r.GetState.Addresses.get ⟨_, hlt⟩ = a0 :=
    List.mem_singleton.mp (h0 ▸ hmem)
  rw [hreq, heq]

/-- C4 in the round-trip scenario: the registry reports the instance with the endpoint
"http://10.0.0.1:8080"; the request is built for "http://10.0.0.1:8080/x". -/
theorem NewRequest_url_round_trip :
    ((emptyClient (.error [])).AddDiscovery urlParse zoneDiscovery "svc".toList).1.NewRequest
        (fun n => n - 1) recordRequest "GET".toList "svc".toList "/x".toList () =
      .ret (recordRequest "GET".toList "http://10.0.0.1:8080/x".toList ()) :=
  (NewRequest_url
    ((emptyClient (.error [])).AddDiscovery urlParse zoneDiscovery "svc".toList).1
    (fun n => n - 1) recordRequest "GET".toList "svc".toList "/x".toList ()
    ((NewBuilder zoneDiscovery "svc".toList).Build urlParse).b
    (fun n hn => Nat.sub_lt hn Nat.one_pos) rfl (by decide)).2 zoneAddress (by decide)

/-! ## `Build`, the watch goroutine and `AddDiscovery` -/

/-- The watch goroutine replaces the state when `Next()` returns an error and leaves it
alone when `Next()` returns none. -/
theorem watchGoroutine_eq (parse : Str → Except Str URL) (b : builder)
    (ins : List ServiceInstance) (err : Str) :
    b.watchGoroutine parse { Next := (ins, none) } = b ∧
    b.watchGoroutine parse { Next := (ins, some err) } = b.updateStates parse ins :=
  ⟨rfl, rfl⟩

/-- C5 at the failing inputs. The resolver holds the Address of 10.0.0.1:8080. When
`Next()` succeeds with the instance at 10.0.0.2:8080, whose Address Set is the Address of
10.0.0.2:8080, the stored set is still the old one; when `Next()` fails, the stored set is
replaced, here by the empty set. -/
theorem watchGoroutine_inverted :
    ((svcBuilder [zoneAddress]).updateStates urlParse [movedInstance]).GetState.Addresses =
      [movedAddress] ∧
    ((svcBuilder [zoneAddress]).watchGoroutine urlParse
      { Next := ([movedInstance], none) }).GetState.Addresses = [zoneAddress] ∧
    ((svcBuilder [zoneAddress]).watchGoroutine urlParse
      { Next := ([], some "watch closed".toList) }).GetState.Addresses = [] := by
  decide

/-- When `Build` returns no error: exactly when the registry returns the instances and
opens the watch. -/
theorem Build_err_eq_none_iff (parse : Str → Except Str URL) (b : builder) :
    (b.Build parse).err = none ↔
      ∃ i w, b.discoverer.GetService b.target = .ok i ∧ b.discoverer.Watch b.target = .ok w := by
  unfold builder.Build
  cases hg : b.discoverer.GetService b.target with
  | error e => simp
  | ok i =>
    have hd : (b.updateStates parse i).discoverer = b.discoverer := rfl
    have ht : (b.updateStates parse i).target = b.target := rfl
    simp only [hd, ht]
    cases hw : b.discoverer.Watch b.target with
    | error e => simp
    | ok w => simp

/-- C6: `AddDiscovery` registers exactly when the initial `Build` succeeds. `Build`
succeeds exactly when the registry returns the instances and opens the watch. If `Build`
fails, `AddDiscovery` returns its error and the resolver mapping is unchanged. If `Build`
succeeds, `AddDiscovery` returns no error, the mapping has the new resolver (built for
this name and registry, holding the Address Set of the fetched instances) at the service
name, and every other name is mapped as before. -/
theorem AddDiscovery_registers_iff {Req : Type} (parse : Str → Except Str URL)
    (c : Client Req) (d : Discovery) (target : Str) :
    (((NewBuilder d target).Build parse).err = none ↔
      ∃ i w, d.GetService target = .ok i ∧ d.Watch target = .ok w) ∧
    (∀ e, ((NewBuilder d target).Build parse).err = some e →
      c.AddDiscovery parse d target = (c, some e)) ∧
    (∀ e, d.GetService target = .error e → ∃ e1, c.AddDiscovery parse d target = (c, some e1)) ∧
    (∀ i e, d.GetService target = .ok i → d.Watch target = .error e →
      c.AddDiscovery parse d target = (c, some e)) ∧
    (∀ i w, d.GetService target = .ok i → d.Watch target = .ok w →
      (c.AddDiscovery parse d target).2 = none ∧
      (c.AddDiscovery parse d target).1.hc = c.hc ∧
      (c.AddDiscovery parse d target).1.resolvers target =
        some ((NewBuilder d target).updateStates parse i) ∧
      (∀ r, (c.AddDiscovery parse d target).1.resolvers target = some r →
        r.target = target ∧ r.GetState.Addresses = resolvedAddresses parse i) ∧
      (∀ k, k ≠ target →
        (c.AddDiscovery parse d target).1.resolvers k = c.resolvers k)) := by
  refine ⟨Build_err_eq_none_iff parse (NewBuilder d target), ?_, ?_, ?_, ?_⟩
  · intro e he
    unfold Client.AddDiscovery
    simp only [he]
  · intro e he
    refine ⟨"discoverer.GetService ".toList ++ target ++ " err: ".toList ++ e, ?_⟩
    simp only [Client.AddDiscovery, builder.Build, NewBuilder, he]
  · intro i e hi he
    have hw : ((NewBuilder d target).updateStates parse i).discoverer.Watch
        ((NewBuilder d target).updateStates parse i).target = .error e := he
    simp only [Client.AddDiscovery, builder.Build, show (NewBuilder d target).discoverer.GetService
      (NewBuilder d target).target = .ok i from hi, hw]
  · intro i w hi hw
    have hw1 : ((NewBuilder d target).updateStates parse i).discoverer.Watch
        ((NewBuilder d target).updateStates parse i).target = .ok w := hw
    have hadd : c.AddDiscovery parse d target =
        ({ c with resolvers := fun k =>
            if k = target then some ((NewBuilder d target).updateStates parse i)
            else c.resolvers k }, none) := by
      simp only [Client.AddDiscovery, builder.Build,
        show (NewBuilder d target).discoverer.GetService (NewBuilder d target).target = .ok i
          from hi, hw1]
    rw [hadd]
    refine ⟨rfl, rfl, ?_, ?_, ?_⟩
    · simp
    · intro r hr
      simp only [if_true, Option.some.injEq] at hr
      subst hr
      exact ⟨rfl, updateStates_addresses parse _ i⟩
    · intro k hk
      simp [hk]

/-- C6 at concrete registries: one that cannot be read, one that cannot be watched, and one
that reports the instance at 10.0.0.1:8080 over an earlier registration of "svc". -/
theorem AddDiscovery_registers_examples :
    ((svcClient []).AddDiscovery urlParse noDiscovery "svc".toList).2 =
      some "discoverer.GetService svc err: unavailable".toList ∧
    (((svcClient []).AddDiscovery urlParse noDiscovery "svc".toList).1.resolvers
      "svc".toList).map (fun r => r.GetState.Addresses) = some [] ∧
    ((svcClient []).AddDiscovery urlParse unwatchableDiscovery "svc".toList).2 =
      some "watch refused".toList ∧
    (((svcClient []).AddDiscovery urlParse unwatchableDiscovery "svc".toList).1.resolvers
      "svc".toList).map (fun r => r.GetState.Addresses) = some [] ∧
    ((svcClient []).AddDiscovery urlParse zoneDiscovery "svc".toList).2 = none ∧
    (((svcClient []).AddDiscovery urlParse zoneDiscovery "svc".toList).1.resolvers
      "svc".toList).map (fun r => r.GetState.Addresses) = some [zoneAddress] := by
  have h := AddDiscovery_registers_iff urlParse (svcClient []) zoneDiscovery "svc".toList
  have h1 := AddDiscovery_registers_iff urlParse (svcClient []) noDiscovery "svc".toList
  have h2 := AddDiscovery_registers_iff urlParse (svcClient []) unwatchableDiscovery "svc".toList
  refine ⟨by decide, ?_, by decide, ?_, (h.2.2.2.2 _ _ rfl rfl).1, ?_⟩
  · rw [h1.2.1 _ rfl]; rfl
  · rw [h2.2.2.2.1 _ _ rfl rfl]; rfl
  · rw [(h.2.2.2.2 _ _ rfl rfl).2.2.1]; decide

end Kratosv2httpresolver
